import Mathlib

/-!
# HypothesisInterface.cpp: a shallow embedding

The translation unit `src/HypothesisInterface.cpp` keeps four pieces of
process-wide state (two `FILE *` globals, the `outgoing` character array
and the two pipe paths read from the environment) and drives them with
`stdio` calls.  Here that state is an explicit record, every `stdio` call
is a function on the record, and each C function is the composition of the
calls it makes, in source order.

Behaviour the C and C++ standards leave undefined (a write past the end of
`outgoing`, a `stdio` call on a null or an already closed stream) is not
given a meaning: the run stops there with a `Fault` that names it, and the
state at that point is kept so that one can see what had happened before.
`assert` is taken as enabled (no `NDEBUG`): a failed assertion stops the run
with `Fault.assertion`.

Conventions of the platform that the source relies on and that are fixed
here: `int` has 32 bits in two's complement and `<<` on it keeps the low 32
bits (the rule of C++20, and what compilers did before it); `fopen` on a null
path fails like `fopen` on a path that cannot be opened; the width of
`unsigned long` is a field of the environment, since it differs between
platforms (64 bits on LP64, 32 bits on ILP32 and LLP64); the end-of-file
indicator of a stream stays set once `fgetc` has returned `EOF` at the end of
the stream (ISO C; the source never calls `clearerr`), so every later `fgetc`
on that stream returns `EOF` as well, without reading.
-/

namespace HypothesisInterface

/-- One `char` of the program, by its value as `unsigned char`. -/
abbrev Byte := Fin 256

/-- The constant `#define BUF_SIZE 200`. -/
def BUF_SIZE : Nat := 200

/-- The value `EOF` returned by `fgetc`. -/
def EOF : Int := -1

/-- What a `FILE *` global holds: `NULL`, a stream that is open, or the
stale pointer left behind by `fclose` (the source never resets it). -/
inductive Handle where
  | null
  | opened
  | closed
  deriving DecidableEq, Repr

/-- Why a run stopped without returning. -/
inductive Fault where
  /-- A failed `assert`: the process aborts with a diagnostic. -/
  | assertion
  /-- A write past the end of `outgoing`: undefined behaviour. -/
  | overflow
  /-- A `stdio` call on a null stream: undefined behaviour. -/
  | nullStream
  /-- A `stdio` call on a stream that `fclose` already released: undefined behaviour. -/
  | closedStream
  /-- The read loop never leaves: no further byte reaches `fgetc`. -/
  | spin
  deriving DecidableEq, Repr

/-- The `stdio` calls the program makes, recorded in the order made. -/
inductive Call where
  | fopenCommands (ok : Bool)
  | fopenResults (ok : Bool)
  | fputc (b : Byte)
  | fwrite (bs : List Byte)
  | fflush
  | fgetc (c : Option Byte)
  | fcloseResults
  | fcloseCommands
  deriving DecidableEq, Repr

/-- What the program finds around it: the two environment variables
(`none` when unset), whether `fopen` succeeds on a path, and the width in
bits of `unsigned long` on the platform. -/
structure Env where
  fifo_commands : Option String
  fifo_results : Option String
  openable : String → Bool
  ulongBits : Nat

/-- The process state.  `outgoing` is the whole array, `pending` the bytes
sitting in the buffer of `commands_file`, `pipe` the bytes that reached the
command pipe, `incoming` what the result pipe holds for the coming reads, in
order (`none` is an end of stream: the peer closed its end, and what follows
it was written after the peer opened the pipe again) and `trace` the calls
made so far. -/
structure State where
  results_file : Handle
  commands_file : Handle
  outgoing : List Byte
  pending : List Byte
  pipe : List Byte
  incoming : List (Option Byte)
  trace : List Call
  deriving DecidableEq, Repr

/-- How a call ends: it returns a value, or it stops with a fault; either
way the state reached is known. -/
inductive Outcome (α : Type) where
  | ok (val : α) (s : State)
  | fail (f : Fault) (s : State)
  deriving DecidableEq, Repr

/-- Sequencing of two calls: the second runs only if the first returned. -/
def Outcome.bind {α β : Type} (o : Outcome α) (k : α → State → Outcome β) : Outcome β :=
  match o with
  | .ok a s => k a s
  | .fail f s => .fail f s

/-- The state a run ended in. -/
def Outcome.state {α : Type} : Outcome α → State
  | .ok _ s => s
  | .fail _ s => s

/-- Whether the run returned normally. -/
def Outcome.returns {α : Type} : Outcome α → Bool
  | .ok _ _ => true
  | .fail _ _ => false

/-- The state at program start: both `FILE *` globals are `NULL`, the
static array is zero-filled, nothing was written, and `incoming` is what the
peer is going to answer. -/
def initState (incoming : List (Option Byte)) : State :=
  { results_file := .null, commands_file := .null,
    outgoing := List.replicate BUF_SIZE 0,
    pending := [], pipe := [], incoming := incoming, trace := [] }

/-- The C string a `const char *` argument denotes: the bytes before the
first NUL. -/
def cstr (text : List Byte) : List Byte := text.takeWhile (fun b => b ≠ 0)

/-- The call `strlen(buf)`: the number of bytes before the first NUL.  The
array always holds one: it starts zero-filled and every `store` ends in a
NUL. -/
def strlen (buf : List Byte) : Nat := (buf.takeWhile (fun b => b ≠ 0)).length

/-- Storing a string and its terminating NUL at the start of an array, as
`strcpy` and `sprintf` do; `none` when the array is too short for them. -/
def store (buf : List Byte) (str : List Byte) : Option (List Byte) :=
  if str.length + 1 ≤ buf.length then
    some (str ++ (0 : Byte) :: buf.drop (str.length + 1))
  else none

/-- The call `fopen(path, mode)` as far as the program can tell: a stream or
`NULL`.  An unset variable gives the null path, which no open succeeds on. -/
def fopen (env : Env) (path : Option String) : Bool :=
  match path with
  | none => false
  | some p => env.openable p

/-- The conversion `(unsigned char) n` that `fputc` applies to its argument. -/
def toUChar (n : Nat) : Byte := ⟨n % 256, Nat.mod_lt n (by decide)⟩

/-- The call `fputc(n, commands_file)`: the byte `(unsigned char) n` goes to
the stream buffer. -/
def fputc (n : Nat) (s : State) : Outcome Unit :=
  match s.commands_file with
  | .null => .fail .nullStream s
  | .closed => .fail .closedStream s
  | .opened =>
    .ok () { s with pending := s.pending ++ [toUChar n], trace := s.trace ++ [.fputc (toUChar n)] }

/-- The call `fwrite(outgoing, sizeof(char), count, commands_file)`. -/
def fwrite (count : Nat) (s : State) : Outcome Unit :=
  match s.commands_file with
  | .null => .fail .nullStream s
  | .closed => .fail .closedStream s
  | .opened =>
    let bs := s.outgoing.take count
    .ok () { s with pending := s.pending ++ bs, trace := s.trace ++ [.fwrite bs] }

/-- The call `fflush(commands_file)`: the buffered bytes reach the pipe. -/
def fflush (s : State) : Outcome Unit :=
  match s.commands_file with
  | .null => .fail .nullStream s
  | .closed => .fail .closedStream s
  | .opened =>
    .ok () { s with pipe := s.pipe ++ s.pending, pending := [], trace := s.trace ++ [.fflush] }

/-- The function `writeOutgoing`. -/
def writeOutgoing (env : Env) (s : State) : Outcome Unit :=
  -- if (commands_file == NULL) commands_file = fopen(fifo_commands, "w");
  let s1 : State :=
    if s.commands_file = .null then
      { s with
        commands_file := if fopen env env.fifo_commands then .opened else .null,
        trace := s.trace ++ [.fopenCommands (fopen env env.fifo_commands)] }
    else s
  -- int n = strlen(outgoing);
  let n := strlen s1.outgoing
  -- assert(n < 256);
  if n < 256 then
    -- fputc(n, commands_file);
    (fputc n s1).bind fun _ s2 =>
    -- fwrite(outgoing, sizeof(char), strlen(outgoing), commands_file);
    (fwrite (strlen s2.outgoing) s2).bind fun _ s3 =>
    -- fflush(commands_file);
    fflush s3
  else .fail .assertion s1

/-- The function `writeCommand`. -/
def writeCommand (env : Env) (command : List Byte) (s : State) : Outcome Unit :=
  -- strcpy(outgoing, command);
  match store s.outgoing (cstr command) with
  | none => .fail .overflow s
  | some buf => writeOutgoing env { s with outgoing := buf }

/-- The value `fgetc` returns for one item of the result pipe. -/
def fgetcValue : Option Byte → Int
  | none => EOF
  | some b => (b.val : Int)

/-- A 32-bit `int`, given by its bit pattern, read as two's complement. -/
def toInt32 (bits : Nat) : Int :=
  if bits % 2 ^ 32 < 2 ^ 31 then ((bits % 2 ^ 32 : Nat) : Int)
  else ((bits % 2 ^ 32 : Nat) : Int) - 2 ^ 32

/-- The loop `while (i < 4)` of `readResult`; `result` is the bit pattern of
the `int`.  Each turn calls `fgetc`, which takes the next item of `incoming`.
On a byte the loop goes on as written.  On the end of the stream `fgetc`
returns `EOF` and the end-of-file indicator is set; `continue` leads back to
`fgetc`, which now returns `EOF` again without reading, turn after turn: the
loop never leaves and what the pipe holds behind the end of the stream stays
unread.  When `incoming` is used up before four bytes were read, `fgetc`
waits for ever. -/
def readLoop (s : State) : List (Option Byte) → Nat → Nat → List Call → Outcome Int
  | [], i, result, tr =>
    if i < 4 then .fail .spin { s with incoming := [], trace := tr }
    else .ok (toInt32 result) { s with incoming := [], trace := tr }
  | ev :: rest, i, result, tr =>
    if i < 4 then
      -- int c = fgetc(results_file);
      let c := fgetcValue ev
      -- if (c == EOF) continue;
      if c = EOF then .fail .spin { s with incoming := rest, trace := tr ++ [.fgetc ev] }
      -- assert(0 <= c && c < 256);
      else if 0 ≤ c ∧ c < 256 then
        -- result <<= 8; result |= c; i++;
        readLoop s rest (i + 1) (((result <<< 8) % 2 ^ 32) ||| c.toNat) (tr ++ [.fgetc ev])
      else .fail .assertion { s with incoming := rest, trace := tr ++ [.fgetc ev] }
    else .ok (toInt32 result) { s with incoming := ev :: rest, trace := tr }

/-- The function `readResult`.  Its `fflush(stderr)` touches nothing of the
state kept here. -/
def readResult (env : Env) (s : State) : Outcome Int :=
  -- if (results_file == NULL) results_file = fopen(fifo_results, "r");
  let s1 : State :=
    if s.results_file = .null then
      { s with
        results_file := if fopen env env.fifo_results then .opened else .null,
        trace := s.trace ++ [.fopenResults (fopen env env.fifo_results)] }
    else s
  -- assert(results_file != NULL);
  match s1.results_file with
  | .null => .fail .assertion s1
  | .closed => .fail .closedStream s1
  | .opened => readLoop s1 s1.incoming 0 0 s1.trace

/-- The function `getAck`. -/
def getAck (env : Env) (s : State) : Outcome Unit :=
  -- int result = readResult();
  (readResult env s).bind fun result s1 =>
  -- assert(result == 0);
  if result = 0 then .ok () s1 else .fail .assertion s1

/-- The function `hypothesisGetRand`; the `int` is converted to
`unsigned long` at the `return`. -/
def hypothesisGetRand (env : Env) (s : State) : Outcome Nat :=
  -- writeCommand("RAND");
  (writeCommand env [82, 65, 78, 68] s).bind fun _ s1 =>
  -- return readResult();
  (readResult env s1).bind fun result s2 =>
  .ok (result % 2 ^ env.ulongBits).toNat s2

/-- The function `hypothesisInitConnection`, whose body is empty. -/
def hypothesisInitConnection (s : State) : Outcome Unit := .ok () s

/-- The call `fclose(results_file)`. -/
def fcloseResults (s : State) : Outcome Unit :=
  match s.results_file with
  | .null => .fail .nullStream s
  | .closed => .fail .closedStream s
  | .opened => .ok () { s with results_file := .closed, trace := s.trace ++ [.fcloseResults] }

/-- The call `fclose(commands_file)`, which flushes what is still buffered. -/
def fcloseCommands (s : State) : Outcome Unit :=
  match s.commands_file with
  | .null => .fail .nullStream s
  | .closed => .fail .closedStream s
  | .opened =>
    .ok () { s with commands_file := .closed, pipe := s.pipe ++ s.pending, pending := [],
                    trace := s.trace ++ [.fcloseCommands] }

/-- The function `hypothesisTerminateConnection`. -/
def hypothesisTerminateConnection (env : Env) (s : State) : Outcome Unit :=
  -- writeCommand("TERMINATE");
  (writeCommand env [84, 69, 82, 77, 73, 78, 65, 84, 69] s).bind fun _ s1 =>
  -- getAck();
  (getAck env s1).bind fun _ s2 =>
  -- fclose(results_file);
  (fcloseResults s2).bind fun _ s3 =>
  -- fclose(commands_file);
  fcloseCommands s3

/-- The function `hypothesisStartExample`. -/
def hypothesisStartExample (env : Env) (label : List Byte) (s : State) : Outcome Unit :=
  -- sprintf(outgoing, "START %s", label);
  match store s.outgoing ([83, 84, 65, 82, 84, 32] ++ cstr label) with
  | none => .fail .overflow s
  | some buf =>
    let s1 : State := { s with outgoing := buf }
    -- assert(strlen(outgoing) > 0);
    if strlen s1.outgoing > 0 then
      -- writeOutgoing();
      (writeOutgoing env s1).bind fun _ s2 =>
      -- getAck();
      getAck env s2
    else .fail .assertion s1

/-- The function `hypothesisEndExample`. -/
def hypothesisEndExample (env : Env) (s : State) : Outcome Unit :=
  -- writeCommand("END");
  (writeCommand env [69, 78, 68] s).bind fun _ s1 =>
  -- getAck();
  getAck env s1

/-! ## Vocabulary of the properties -/

/-- The value a run returned, if it returned. -/
def Outcome.value? {α : Type} : Outcome α → Option α
  | .ok a _ => some a
  | .fail _ _ => none

/-- The fault a run stopped with, if it stopped. -/
def Outcome.fault? {α : Type} : Outcome α → Option Fault
  | .ok _ _ => none
  | .fail f _ => some f

/-- The frame of a command text on the wire: one length byte, then the text
itself, no terminator. -/
def frame (text : List Byte) : List Byte := toUChar text.length :: text

/-- The unsigned 32-bit big-endian value of four bytes. -/
def decode (b0 b1 b2 b3 : Byte) : Nat :=
  b0.val * 2 ^ 24 + b1.val * 2 ^ 16 + b2.val * 2 ^ 8 + b3.val

/-- The data bytes among the items of the result pipe, in order. -/
def dataBytes (evs : List (Option Byte)) : List Byte := evs.filterMap id

/-- The bit pattern `readResult` builds from `result` by shifting in bytes. -/
def accumulate (result : Nat) (bs : List Byte) : Nat :=
  bs.foldl (fun r b => ((r <<< 8) % 2 ^ 32) ||| b.val) result

/-- The command stream can be used: it is open, or it was never opened and
opening the configured path succeeds. -/
def commandsReady (env : Env) (s : State) : Prop :=
  s.commands_file = .opened ∨ (s.commands_file = .null ∧ fopen env env.fifo_commands = true)

/-- The result stream can be used: it is open, or it was never opened and
opening the configured path succeeds. -/
def resultsReady (env : Env) (s : State) : Prop :=
  s.results_file = .opened ∨ (s.results_file = .null ∧ fopen env env.fifo_results = true)

/-- The state once the frame of `text` has been stored in `outgoing`, written
and flushed, the command stream having been opened if it was not yet. -/
def sent (s : State) (text : List Byte) : State :=
  { s with
    commands_file := .opened
    outgoing := text ++ (0 : Byte) :: s.outgoing.drop (text.length + 1)
    pending := []
    pipe := s.pipe ++ (s.pending ++ frame text)
    trace := s.trace ++ (if s.commands_file = .null then [Call.fopenCommands true] else [])
      ++ [.fputc (toUChar text.length), .fwrite text, .fflush] }

/-- The state once the deliveries `consumed` have been taken from the result
pipe and `rest` is left, the result stream having been opened if it was not
yet. -/
def received (s : State) (consumed rest : List (Option Byte)) : State :=
  { s with
    results_file := .opened
    incoming := rest
    trace := s.trace ++ (if s.results_file = .null then [Call.fopenResults true] else [])
      ++ consumed.map Call.fgetc }

/-- A platform on which both pipe paths are set and can be opened, with
`unsigned long` of the given width. -/
def platform (ulongBits : Nat) : Env :=
  { fifo_commands := some "commands.fifo", fifo_results := some "results.fifo",
    openable := fun _ => true, ulongBits := ulongBits }

/-- An environment in which neither variable is set. -/
def unsetEnv : Env :=
  { fifo_commands := none, fifo_results := none, openable := fun _ => true, ulongBits := 64 }

/-- An environment in which both variables are set but no path can be opened. -/
def unopenableEnv : Env :=
  { fifo_commands := some "commands.fifo", fifo_results := some "results.fifo",
    openable := fun _ => false, ulongBits := 64 }

/-- The call sequence `hypothesisStartExample("ex1")`, `hypothesisGetRand()`,
`hypothesisEndExample()`, `hypothesisTerminateConnection()`; its value is
what `hypothesisGetRand` returned. -/
def session (env : Env) (s : State) : Outcome Nat :=
  (hypothesisStartExample env [101, 120, 49] s).bind fun _ s1 =>
  (hypothesisGetRand env s1).bind fun r s2 =>
  (hypothesisEndExample env s2).bind fun _ s3 =>
  (hypothesisTerminateConnection env s3).bind fun _ s4 =>
  .ok r s4

/-- The state at program start with a peer that acknowledges once. -/
def oneAck : State := initState [some 0, some 0, some 0, some 0]

/-- The state a first `hypothesisTerminateConnection()` ends in when it is
called at program start and the peer acknowledges. -/
def afterTerminate : State := (hypothesisTerminateConnection (platform 64) oneAck).state

/-- A result pipe with four data bytes and one end of stream among them:
`01 02`, end of stream, `03 04`. -/
def interrupted : List (Option Byte) := [some 1, some 2, none, some 3, some 4]

/-- The sixteen bytes with which the peer answers the session: `0`, `7`, `0`, `0`. -/
def sessionAnswers : List (Option Byte) :=
  [some 0, some 0, some 0, some 0, some 0, some 0, some 0, some 7,
   some 0, some 0, some 0, some 0, some 0, some 0, some 0, some 0]

/-! ## Strings and the `outgoing` array -/

theorem cstr_ne_zero (text : List Byte) : ∀ b ∈ cstr text, b ≠ 0 := by
  intro b hb
  have := List.mem_takeWhile_imp hb
  simpa using this

theorem cstr_of_nul_free {text : List Byte} (h : ∀ b ∈ text, b ≠ 0) : cstr text = text := by
  unfold cstr
  rw [List.takeWhile_eq_self_iff]
  intro b hb
  simpa using h b hb

theorem cstr_replicate (n : Nat) (b : Byte) (hb : b ≠ 0) :
    cstr (List.replicate n b) = List.replicate n b :=
  cstr_of_nul_free (by
    intro c hc
    rw [(List.mem_replicate.mp hc).2]
    exact hb)

theorem strlen_le (buf : List Byte) : strlen buf ≤ buf.length := by
  unfold strlen
  exact (List.takeWhile_sublist _).length_le

theorem strlen_append_nul {str : List Byte} (h : ∀ b ∈ str, b ≠ 0) (tail : List Byte) :
    strlen (str ++ (0 : Byte) :: tail) = str.length := by
  unfold strlen
  rw [List.takeWhile_append_of_pos (by intro a ha; simpa using h a ha)]
  simp

theorem store_eq_none {buf str : List Byte} (h : buf.length ≤ str.length) :
    store buf str = none := by
  unfold store
  rw [if_neg (by omega)]

theorem store_eq_some {buf str : List Byte} (h : str.length < buf.length) :
    store buf str = some (str ++ (0 : Byte) :: buf.drop (str.length + 1)) := by
  unfold store
  rw [if_pos (by omega)]

theorem store_some_length {buf str out : List Byte} (h : store buf str = some out) :
    str.length < buf.length ∧ out.length = buf.length := by
  unfold store at h
  split at h
  · cases h
    constructor
    · omega
    · simp
      omega
  · cases h

/-! ## Sending -/

theorem writeOutgoing_ok (env : Env) (s : State) (hc : commandsReady env s)
    (hn : strlen s.outgoing < 256) :
    writeOutgoing env s = .ok ()
      { s with
        commands_file := .opened
        pending := []
        pipe := s.pipe ++ (s.pending ++ frame (s.outgoing.take (strlen s.outgoing)))
        trace := s.trace ++ (if s.commands_file = .null then [Call.fopenCommands true] else [])
          ++ [.fputc (toUChar (strlen s.outgoing)),
              .fwrite (s.outgoing.take (strlen s.outgoing)), .fflush] } := by
  rcases s with ⟨rf, cf, out, pend, pipe, inc, tr⟩
  rcases hc with h | ⟨h, ho⟩
  · simp only at h
    subst h
    simp [writeOutgoing, fputc, fwrite, fflush, Outcome.bind, frame] at hn ⊢
    simp [hn, Nat.min_eq_left (strlen_le out)]
  · simp only at h ho
    subst h
    simp [writeOutgoing, fputc, fwrite, fflush, Outcome.bind, frame, ho] at hn ⊢
    simp [hn, Nat.min_eq_left (strlen_le out)]

theorem writeOutgoing_stored (env : Env) (s : State) (str tail : List Byte)
    (hc : commandsReady env s) (hz : ∀ b ∈ str, b ≠ 0) (hl : str.length < 256) :
    writeOutgoing env { s with outgoing := str ++ (0 : Byte) :: tail } = .ok ()
      { sent s str with outgoing := str ++ (0 : Byte) :: tail } := by
  have hlen : strlen (str ++ (0 : Byte) :: tail) = str.length := strlen_append_nul hz tail
  have hc1 : commandsReady env { s with outgoing := str ++ (0 : Byte) :: tail } := hc
  rw [writeOutgoing_ok env { s with outgoing := str ++ (0 : Byte) :: tail } hc1
    (by simpa [hlen] using hl)]
  simp [sent, hlen]

theorem writeCommand_sent (env : Env) (command : List Byte) (s : State)
    (hc : commandsReady env s) (hb : s.outgoing.length = BUF_SIZE)
    (hl : (cstr command).length < BUF_SIZE) :
    writeCommand env command s = .ok () (sent s (cstr command)) := by
  unfold writeCommand
  rw [store_eq_some (by omega)]
  simp only
  rw [writeOutgoing_stored env s _ _ hc (cstr_ne_zero command) (by unfold BUF_SIZE at hl; omega)]
  simp [sent]

theorem startExample_overflow (env : Env) (label : List Byte) (s : State)
    (hb : s.outgoing.length = BUF_SIZE) (hl : BUF_SIZE ≤ 6 + (cstr label).length) :
    hypothesisStartExample env label s = .fail .overflow s := by
  unfold hypothesisStartExample
  rw [store_eq_none (by simp; omega)]

/-! ## Receiving -/

theorem readLoop_done (s : State) (evs : List (Option Byte)) (i result : Nat) (tr : List Call)
    (h : ¬ i < 4) :
    readLoop s evs i result tr = .ok (toInt32 result) { s with incoming := evs, trace := tr } := by
  cases evs with
  | nil => simp [readLoop, h]
  | cons ev rest => simp [readLoop, h]

theorem readLoop_none (s : State) (rest : List (Option Byte)) (i result : Nat) (tr : List Call)
    (h : i < 4) :
    readLoop s (none :: rest) i result tr =
      .fail .spin { s with incoming := rest, trace := tr ++ [.fgetc none] } := by
  simp [readLoop, h, fgetcValue]

theorem readLoop_some (s : State) (b : Byte) (rest : List (Option Byte)) (i result : Nat)
    (tr : List Call) (h : i < 4) :
    readLoop s (some b :: rest) i result tr =
      readLoop s rest (i + 1) (((result <<< 8) % 2 ^ 32) ||| b.val) (tr ++ [.fgetc (some b)]) := by
  have h1 : ¬ ((b.val : Int) = EOF) := by unfold EOF; omega
  have h2 : (0 : Int) ≤ (b.val : Int) ∧ (b.val : Int) < 256 := by
    constructor <;> omega
  simp [readLoop, h, fgetcValue, h1, h2]

theorem shift_or_byte (r : Nat) (b : Byte) :
    ((r <<< 8) % 2 ^ 32) ||| b.val = (r % 2 ^ 24) * 256 + b.val := by
  have hb : b.val < 2 ^ 8 := b.isLt
  have h1 : (r <<< 8) % 2 ^ 32 = 2 ^ 8 * (r % 2 ^ 24) := by
    rw [Nat.shiftLeft_eq]
    omega
  rw [h1, ← Nat.mul_add_lt_is_or hb]
  omega

theorem accumulate_four (b0 b1 b2 b3 : Byte) :
    accumulate 0 [b0, b1, b2, b3] = decode b0 b1 b2 b3 := by
  have h0 := b0.isLt
  have h1 := b1.isLt
  have h2 := b2.isLt
  have h3 := b3.isLt
  simp only [accumulate, List.foldl_cons, List.foldl_nil, shift_or_byte, decode]
  omega

theorem decode_lt (b0 b1 b2 b3 : Byte) : decode b0 b1 b2 b3 < 2 ^ 32 := by
  have h0 := b0.isLt
  have h1 := b1.isLt
  have h2 := b2.isLt
  have h3 := b3.isLt
  unfold decode
  omega

theorem decode_eq_zero_iff (b0 b1 b2 b3 : Byte) :
    decode b0 b1 b2 b3 = 0 ↔ b0 = 0 ∧ b1 = 0 ∧ b2 = 0 ∧ b3 = 0 := by
  unfold decode
  constructor
  · intro h
    refine ⟨Fin.ext ?_, Fin.ext ?_, Fin.ext ?_, Fin.ext ?_⟩ <;> simp <;> omega
  · rintro ⟨rfl, rfl, rfl, rfl⟩
    simp

theorem toInt32_decode (b0 b1 b2 b3 : Byte) :
    toInt32 (decode b0 b1 b2 b3) =
      if b0.val < 128 then (decode b0 b1 b2 b3 : Int) else (decode b0 b1 b2 b3 : Int) - 2 ^ 32 := by
  have hlt := decode_lt b0 b1 b2 b3
  have h0 := b0.isLt
  have h1 := b1.isLt
  have h2 := b2.isLt
  have h3 := b3.isLt
  unfold toInt32
  rw [Nat.mod_eq_of_lt hlt]
  by_cases hb : b0.val < 128
  · rw [if_pos hb, if_pos (by unfold decode; omega)]
  · rw [if_neg hb, if_neg (by unfold decode; omega)]

theorem toInt32_decode_eq_zero_iff (b0 b1 b2 b3 : Byte) :
    toInt32 (decode b0 b1 b2 b3) = 0 ↔ decode b0 b1 b2 b3 = 0 := by
  have hlt := decode_lt b0 b1 b2 b3
  rw [toInt32_decode]
  unfold decode at hlt ⊢
  split <;> omega

theorem readResult_four (env : Env) (s : State) (b0 b1 b2 b3 : Byte) (rest : List (Option Byte))
    (hr : resultsReady env s)
    (hin : s.incoming = some b0 :: some b1 :: some b2 :: some b3 :: rest) :
    readResult env s =
      .ok (toInt32 (decode b0 b1 b2 b3)) (received s [some b0, some b1, some b2, some b3] rest) := by
  rcases s with ⟨rf, cf, out, pend, pipe, inc, tr⟩
  simp only at hin
  subst hin
  rw [← accumulate_four]
  rcases hr with h | ⟨h, ho⟩
  · simp only at h
    subst h
    simp [readResult, received, readLoop_some, readLoop_done, accumulate]
  · simp only at h ho
    subst h
    simp [readResult, received, readLoop_some, readLoop_done, accumulate, ho]

theorem getAck_four (env : Env) (s : State) (b0 b1 b2 b3 : Byte) (rest : List (Option Byte))
    (hr : resultsReady env s)
    (hin : s.incoming = some b0 :: some b1 :: some b2 :: some b3 :: rest) :
    getAck env s =
      if decode b0 b1 b2 b3 = 0 then
        .ok () (received s [some b0, some b1, some b2, some b3] rest)
      else .fail .assertion (received s [some b0, some b1, some b2, some b3] rest) := by
  unfold getAck
  rw [readResult_four env s b0 b1 b2 b3 rest hr hin]
  simp only [Outcome.bind, toInt32_decode_eq_zero_iff]

/-! ## The public operations on a working session -/

theorem initState_outgoing_length (incoming : List (Option Byte)) :
    (initState incoming).outgoing.length = BUF_SIZE := by
  simp [initState]

theorem startExample_sent (env : Env) (label : List Byte) (s : State)
    (hc : commandsReady env s) (hb : s.outgoing.length = BUF_SIZE)
    (hl : 6 + (cstr label).length < BUF_SIZE) :
    hypothesisStartExample env label s =
      getAck env (sent s ([83, 84, 65, 82, 84, 32] ++ cstr label)) := by
  have hstart : ∀ b ∈ ([83, 84, 65, 82, 84, 32] : List Byte), b ≠ 0 := by
    intro b hmem
    simp only [List.mem_cons, List.mem_singleton, List.not_mem_nil, or_false] at hmem
    rcases hmem with h | h | h | h | h | h <;> subst h <;> decide
  have hz : ∀ b ∈ ([83, 84, 65, 82, 84, 32] : List Byte) ++ cstr label, b ≠ 0 := by
    intro b hmem
    rcases List.mem_append.mp hmem with h | h
    · exact hstart b h
    · exact cstr_ne_zero label b h
  have hlen : (([83, 84, 65, 82, 84, 32] : List Byte) ++ cstr label).length = 6 + (cstr label).length := by
    simp
    omega
  unfold hypothesisStartExample
  rw [store_eq_some (by rw [hlen]; omega)]
  simp only
  rw [strlen_append_nul hz, if_pos (by rw [hlen]; omega),
    writeOutgoing_stored env s _ _ hc hz (by rw [hlen]; unfold BUF_SIZE at hl; omega)]
  simp [Outcome.bind, sent]

theorem getRand_four (env : Env) (s : State) (b0 b1 b2 b3 : Byte) (rest : List (Option Byte))
    (hc : commandsReady env s) (hr : resultsReady env s) (hb : s.outgoing.length = BUF_SIZE)
    (hin : s.incoming = some b0 :: some b1 :: some b2 :: some b3 :: rest) :
    hypothesisGetRand env s =
      .ok (toInt32 (decode b0 b1 b2 b3) % 2 ^ env.ulongBits).toNat
        (received (sent s [82, 65, 78, 68]) [some b0, some b1, some b2, some b3] rest) := by
  unfold hypothesisGetRand
  rw [writeCommand_sent env _ s hc hb (by decide)]
  have hcs : cstr ([82, 65, 78, 68] : List Byte) = [82, 65, 78, 68] := by decide
  simp only [Outcome.bind, hcs]
  rw [readResult_four env (sent s [82, 65, 78, 68]) b0 b1 b2 b3 rest hr hin]

/-! ## The frame limit and the size of `outgoing` -/

/-- Claim C8, at labels the claim covers: a NUL-free label of 194 bytes, and
one of 249 bytes, handed to `hypothesisStartExample` makes `sprintf` write past
the end of the 200-byte array `outgoing`; the run stops there and no frame is
written. -/
theorem startExample_overflows_below_frame_limit (env : Env) (incoming : List (Option Byte)) :
    hypothesisStartExample env (List.replicate 194 97) (initState incoming)
      = .fail .overflow (initState incoming) ∧
    hypothesisStartExample env (List.replicate 249 97) (initState incoming)
      = .fail .overflow (initState incoming) := by
  constructor
  · exact startExample_overflow env _ _ (initState_outgoing_length incoming)
      (by rw [cstr_replicate _ _ (by decide), List.length_replicate]; decide)
  · exact startExample_overflow env _ _ (initState_outgoing_length incoming)
      (by rw [cstr_replicate _ _ (by decide), List.length_replicate]; decide)

/-! ## The value of a result -/

/-- Claim C3 as stated fails: on the bytes `FF FF FF FF` the function
`readResult` returns the `int` value `-1`, not `4294967295`. -/
theorem readResult_all_ones_is_minus_one :
    (readResult (platform 64)
      (initState [some 255, some 255, some 255, some 255])).value? = some (-1) ∧
    decode 255 255 255 255 = 4294967295 ∧
    (readResult (platform 64)
      (initState [some 255, some 255, some 255, some 255])).value?
        ≠ some ((decode 255 255 255 255 : Nat) : Int) := by
  rw [readResult_four (platform 64) _ 255 255 255 255 [] (Or.inr ⟨rfl, rfl⟩) rfl]
  simp only [Outcome.value?, toInt32_decode]
  decide

/-- Claim C3, amended: when the result stream is usable and the next four
deliveries are the bytes `b0 b1 b2 b3`, `readResult` returns the 32-bit
two's-complement `int` with that big-endian bit pattern, which is the value
`b0*2^24 + b1*2^16 + b2*2^8 + b3` when `b0 < 128` and that value minus `2^32`
otherwise, and it leaves what follows the four bytes unread. -/
theorem readResult_twos_complement (env : Env) (s : State) (b0 b1 b2 b3 : Byte)
    (rest : List (Option Byte)) (hr : resultsReady env s)
    (hin : s.incoming = some b0 :: some b1 :: some b2 :: some b3 :: rest) :
    (readResult env s).value? =
      some (if b0.val < 128 then (decode b0 b1 b2 b3 : Int)
            else (decode b0 b1 b2 b3 : Int) - 2 ^ 32) ∧
    (readResult env s).state.incoming = rest := by
  rw [readResult_four env s b0 b1 b2 b3 rest hr hin]
  simp [Outcome.value?, Outcome.state, toInt32_decode, received]

/-- Claim C3, amended, on the bytes `00 00 00 2A` at program start: the
result is `42`. -/
theorem readResult_twos_complement_witness :
    resultsReady (platform 64) (initState [some 0, some 0, some 0, some 42]) ∧
    (readResult (platform 64) (initState [some 0, some 0, some 0, some 42])).value? = some 42 ∧
    (readResult (platform 64) (initState [some 0, some 0, some 0, some 42])).state.incoming
      = [] := by
  have hr : resultsReady (platform 64) (initState [some 0, some 0, some 0, some 42]) :=
    Or.inr ⟨rfl, rfl⟩
  have h := readResult_twos_complement (platform 64)
    (initState [some 0, some 0, some 0, some 42]) 0 0 0 42 [] hr rfl
  refine ⟨hr, ?_, h.2⟩
  rw [h.1]
  decide

/-- Claim C4, at the response `80 00 00 00` with a 64-bit `unsigned long`:
`hypothesisGetRand` writes the frame of `RAND` and returns, but the value is
the negative `int` of `readResult` converted to `unsigned long`, that is
`18446744071562067968`, which is neither below `2^32` nor the big-endian
value `2147483648` of the four bytes. -/
theorem getRand_sign_extends (incoming : List (Option Byte)) :
    (hypothesisGetRand (platform 64)
      (initState (some 128 :: some 0 :: some 0 :: some 0 :: incoming))).value?
        = some 18446744071562067968 ∧
    (hypothesisGetRand (platform 64)
      (initState (some 128 :: some 0 :: some 0 :: some 0 :: incoming))).state.pipe
        = [4, 82, 65, 78, 68] ∧
    decode 128 0 0 0 = 2147483648 ∧
    ¬ (18446744071562067968 < 2 ^ 32) := by
  rw [getRand_four (platform 64) _ 128 0 0 0 incoming (Or.inr ⟨rfl, rfl⟩) (Or.inr ⟨rfl, rfl⟩)
    (initState_outgoing_length _) rfl]
  simp only [Outcome.value?, Outcome.state, toInt32_decode]
  refine ⟨by decide, ?_, by decide, by decide⟩
  simp only [received, sent, initState, frame, List.nil_append, List.length_cons,
    List.length_nil]
  decide

/-! ## Acknowledgments -/

theorem endExample_four (env : Env) (s : State) (b0 b1 b2 b3 : Byte) (rest : List (Option Byte))
    (hc : commandsReady env s) (hr : resultsReady env s) (hb : s.outgoing.length = BUF_SIZE)
    (hin : s.incoming = some b0 :: some b1 :: some b2 :: some b3 :: rest) :
    hypothesisEndExample env s =
      if decode b0 b1 b2 b3 = 0 then
        .ok () (received (sent s [69, 78, 68]) [some b0, some b1, some b2, some b3] rest)
      else
        .fail .assertion (received (sent s [69, 78, 68]) [some b0, some b1, some b2, some b3] rest) := by
  unfold hypothesisEndExample
  rw [writeCommand_sent env _ s hc hb (by decide)]
  have hcs : cstr ([69, 78, 68] : List Byte) = [69, 78, 68] := by decide
  simp only [Outcome.bind, hcs]
  exact getAck_four env (sent s [69, 78, 68]) b0 b1 b2 b3 rest hr hin

theorem startExample_four (env : Env) (label : List Byte) (s : State) (b0 b1 b2 b3 : Byte)
    (rest : List (Option Byte))
    (hc : commandsReady env s) (hr : resultsReady env s) (hb : s.outgoing.length = BUF_SIZE)
    (hl : 6 + (cstr label).length < BUF_SIZE)
    (hin : s.incoming = some b0 :: some b1 :: some b2 :: some b3 :: rest) :
    hypothesisStartExample env label s =
      if decode b0 b1 b2 b3 = 0 then
        .ok () (received (sent s ([83, 84, 65, 82, 84, 32] ++ cstr label))
          [some b0, some b1, some b2, some b3] rest)
      else
        .fail .assertion (received (sent s ([83, 84, 65, 82, 84, 32] ++ cstr label))
          [some b0, some b1, some b2, some b3] rest) := by
  rw [startExample_sent env label s hc hb hl]
  exact getAck_four env (sent s ([83, 84, 65, 82, 84, 32] ++ cstr label)) b0 b1 b2 b3 rest hr hin

theorem terminate_four (env : Env) (s : State) (b0 b1 b2 b3 : Byte) (rest : List (Option Byte))
    (hc : commandsReady env s) (hr : resultsReady env s) (hb : s.outgoing.length = BUF_SIZE)
    (hin : s.incoming = some b0 :: some b1 :: some b2 :: some b3 :: rest) :
    hypothesisTerminateConnection env s =
      if decode b0 b1 b2 b3 = 0 then
        .ok ()
          { received (sent s [84, 69, 82, 77, 73, 78, 65, 84, 69])
              [some b0, some b1, some b2, some b3] rest with
            results_file := .closed
            commands_file := .closed
            trace := (received (sent s [84, 69, 82, 77, 73, 78, 65, 84, 69])
              [some b0, some b1, some b2, some b3] rest).trace
                ++ [.fcloseResults, .fcloseCommands] }
      else
        .fail .assertion (received (sent s [84, 69, 82, 77, 73, 78, 65, 84, 69])
          [some b0, some b1, some b2, some b3] rest) := by
  unfold hypothesisTerminateConnection
  rw [writeCommand_sent env _ s hc hb (by decide)]
  have hcs : cstr ([84, 69, 82, 77, 73, 78, 65, 84, 69] : List Byte)
      = [84, 69, 82, 77, 73, 78, 65, 84, 69] := by decide
  simp only [Outcome.bind, hcs]
  rw [getAck_four env (sent s [84, 69, 82, 77, 73, 78, 65, 84, 69]) b0 b1 b2 b3 rest hr hin]
  by_cases hz : decode b0 b1 b2 b3 = 0
  · simp [hz, fcloseResults, fcloseCommands, received, sent]
  · simp [hz]

/-- Claim C5 as stated fails: with a label of 250 bytes the response
`00 00 00 00`, which decodes to `0`, does not make `hypothesisStartExample`
return. -/
theorem startExample_long_label_never_returns :
    decode 0 0 0 0 = 0 ∧
    (hypothesisStartExample (platform 64) (List.replicate 250 97)
      (initState [some 0, some 0, some 0, some 0])).returns = false := by
  refine ⟨by decide, ?_⟩
  rw [startExample_overflow (platform 64) _ _ (initState_outgoing_length _)
    (by rw [cstr_replicate _ _ (by decide), List.length_replicate]; decide)]
  rfl

/-- Claim C5, amended: when both streams are usable, the label has at most 193
bytes (its formatted text and terminator fit the 200-byte array) and the peer
answers with the bytes `b0 b1 b2 b3`, each of `hypothesisStartExample`,
`hypothesisEndExample` and `hypothesisTerminateConnection` returns exactly
when the answer decodes to `0`, and stops on the failed assertion of `getAck`
otherwise. -/
theorem ack_decides_return (env : Env) (label : List Byte) (s : State) (b0 b1 b2 b3 : Byte)
    (rest : List (Option Byte))
    (hc : commandsReady env s) (hr : resultsReady env s) (hb : s.outgoing.length = BUF_SIZE)
    (hl : (cstr label).length ≤ 193)
    (hin : s.incoming = some b0 :: some b1 :: some b2 :: some b3 :: rest) :
    ((hypothesisStartExample env label s).returns = true ↔ decode b0 b1 b2 b3 = 0) ∧
    (decode b0 b1 b2 b3 ≠ 0 →
      (hypothesisStartExample env label s).fault? = some .assertion) ∧
    ((hypothesisEndExample env s).returns = true ↔ decode b0 b1 b2 b3 = 0) ∧
    (decode b0 b1 b2 b3 ≠ 0 → (hypothesisEndExample env s).fault? = some .assertion) ∧
    ((hypothesisTerminateConnection env s).returns = true ↔ decode b0 b1 b2 b3 = 0) ∧
    (decode b0 b1 b2 b3 ≠ 0 →
      (hypothesisTerminateConnection env s).fault? = some .assertion) := by
  rw [startExample_four env label s b0 b1 b2 b3 rest hc hr hb (by unfold BUF_SIZE; omega) hin,
    endExample_four env s b0 b1 b2 b3 rest hc hr hb hin,
    terminate_four env s b0 b1 b2 b3 rest hc hr hb hin]
  by_cases hz : decode b0 b1 b2 b3 = 0
  · simp [hz, Outcome.returns]
  · simp [hz, Outcome.returns, Outcome.fault?]

/-- Claim C5, amended, at program start with the label `foo`: the answer
`00 00 00 01` does not decode to `0`, so none of the three operations returns
and each stops on the assertion of `getAck`; on the answer `00 00 00 00`
`hypothesisStartExample` returns. -/
theorem ack_decides_return_witness :
    commandsReady (platform 64) (initState [some 0, some 0, some 0, some 1]) ∧
    resultsReady (platform 64) (initState [some 0, some 0, some 0, some 1]) ∧
    (cstr ([102, 111, 111] : List Byte)).length ≤ 193 ∧
    decode 0 0 0 1 ≠ 0 ∧
    (hypothesisStartExample (platform 64) [102, 111, 111]
      (initState [some 0, some 0, some 0, some 1])).fault? = some .assertion ∧
    (hypothesisEndExample (platform 64)
      (initState [some 0, some 0, some 0, some 1])).fault? = some .assertion ∧
    (hypothesisTerminateConnection (platform 64)
      (initState [some 0, some 0, some 0, some 1])).fault? = some .assertion ∧
    decode 0 0 0 0 = 0 ∧
    (hypothesisStartExample (platform 64) [102, 111, 111]
      (initState [some 0, some 0, some 0, some 0])).returns = true := by
  have hc : commandsReady (platform 64) (initState [some 0, some 0, some 0, some 1]) :=
    Or.inr ⟨rfl, rfl⟩
  have hr : resultsReady (platform 64) (initState [some 0, some 0, some 0, some 1]) :=
    Or.inr ⟨rfl, rfl⟩
  have hl : (cstr ([102, 111, 111] : List Byte)).length ≤ 193 := by decide
  have hd : decode 0 0 0 1 ≠ 0 := by decide
  have hz : decode 0 0 0 0 = 0 := by decide
  have h := ack_decides_return (platform 64) [102, 111, 111]
    (initState [some 0, some 0, some 0, some 1]) 0 0 0 1 [] hc hr
    (initState_outgoing_length _) hl rfl
  have h0 := ack_decides_return (platform 64) [102, 111, 111]
    (initState [some 0, some 0, some 0, some 0]) 0 0 0 0 [] (Or.inr ⟨rfl, rfl⟩)
    (Or.inr ⟨rfl, rfl⟩) (initState_outgoing_length _) hl rfl
  exact ⟨hc, hr, hl, hd, h.2.1 hd, h.2.2.2.1 hd, h.2.2.2.2.2 hd, hz, h0.1.mpr hz⟩

/-! ## After the streams were closed -/

theorem writeOutgoing_outgoing (env : Env) (s : State) :
    (writeOutgoing env s).state.outgoing = s.outgoing := by
  rcases s with ⟨rf, cf, out, pend, pipe, inc, tr⟩
  by_cases hn : strlen out < 256
  · cases cf
    · cases hf : fopen env env.fifo_commands <;>
        simp [writeOutgoing, hn, fputc, fwrite, fflush, Outcome.bind, Outcome.state, hf]
    · simp [writeOutgoing, hn, fputc, fwrite, fflush, Outcome.bind, Outcome.state]
    · simp [writeOutgoing, hn, fputc, fwrite, fflush, Outcome.bind, Outcome.state]
  · cases cf <;> simp [writeOutgoing, hn, Outcome.state]

theorem writeCommand_ok_length {env : Env} {command : List Byte} {s sa : State}
    (h : writeCommand env command s = .ok () sa) :
    (cstr command).length < sa.outgoing.length := by
  unfold writeCommand at h
  cases hst : store s.outgoing (cstr command) with
  | none => rw [hst] at h; cases h
  | some buf =>
    rw [hst] at h
    simp only at h
    have hout := writeOutgoing_outgoing env { s with outgoing := buf }
    rw [h] at hout
    simp only [Outcome.state] at hout
    have hlen := store_some_length hst
    rw [hout, hlen.2]
    exact hlen.1

theorem readLoop_outgoing (s : State) :
    ∀ (evs : List (Option Byte)) (i result : Nat) (tr : List Call),
      (readLoop s evs i result tr).state.outgoing = s.outgoing := by
  intro evs
  induction evs with
  | nil =>
    intro i result tr
    by_cases h : i < 4 <;> simp [readLoop, h, Outcome.state]
  | cons ev evs ih =>
    intro i result tr
    by_cases h : i < 4
    · cases ev with
      | none => rw [readLoop_none s evs i result tr h]; rfl
      | some b => rw [readLoop_some s b evs i result tr h]; exact ih _ _ _
    · rw [readLoop_done s _ i result tr h]
      rfl

theorem readResult_outgoing (env : Env) (s : State) :
    (readResult env s).state.outgoing = s.outgoing := by
  rcases s with ⟨rf, cf, out, pend, pipe, inc, tr⟩
  cases rf
  · cases hf : fopen env env.fifo_results
    · simp [readResult, hf, Outcome.state]
    · simp only [readResult, hf, if_true]
      exact readLoop_outgoing _ _ _ _ _
  · simp only [readResult]
    exact readLoop_outgoing _ _ _ _ _
  · simp [readResult, Outcome.state]

theorem getAck_ok_outgoing {env : Env} {s sb : State} (h : getAck env s = .ok () sb) :
    sb.outgoing = s.outgoing := by
  unfold getAck at h
  have hout := readResult_outgoing env s
  cases hr : readResult env s with
  | fail f s1 => rw [hr] at h; cases h
  | ok v s1 =>
    rw [hr] at h hout
    simp only [Outcome.bind] at h
    simp only [Outcome.state] at hout
    split at h
    · cases h
      exact hout
    · cases h

theorem fcloseResults_ok {s sc : State} (h : fcloseResults s = .ok () sc) :
    sc.results_file = .closed ∧ sc.outgoing = s.outgoing := by
  unfold fcloseResults at h
  split at h
  · cases h
  · cases h
  · cases h
    exact ⟨rfl, rfl⟩

theorem fcloseCommands_ok {s sd : State} (h : fcloseCommands s = .ok () sd) :
    sd.commands_file = .closed ∧ sd.results_file = s.results_file ∧ sd.outgoing = s.outgoing := by
  unfold fcloseCommands at h
  split at h
  · cases h
  · cases h
  · cases h
    exact ⟨rfl, rfl, rfl⟩

theorem terminate_ok_closed {env : Env} {s s1 : State}
    (h : hypothesisTerminateConnection env s = .ok () s1) :
    s1.commands_file = .closed ∧ s1.results_file = .closed ∧ 9 < s1.outgoing.length := by
  unfold hypothesisTerminateConnection at h
  cases hw : writeCommand env [84, 69, 82, 77, 73, 78, 65, 84, 69] s with
  | fail f sa => rw [hw] at h; cases h
  | ok u sa =>
    rw [hw] at h
    simp only [Outcome.bind] at h
    have hlen := writeCommand_ok_length hw
    have hcs : (cstr ([84, 69, 82, 77, 73, 78, 65, 84, 69] : List Byte)).length = 9 := by decide
    rw [hcs] at hlen
    cases hg : getAck env sa with
    | fail f sb => rw [hg] at h; cases h
    | ok u1 sb =>
      rw [hg] at h
      simp only at h
      have hb := getAck_ok_outgoing hg
      cases hc : fcloseResults sb with
      | fail f sc => rw [hc] at h; cases h
      | ok u2 sc =>
        rw [hc] at h
        simp only at h
        have hc1 := fcloseResults_ok hc
        have hd := fcloseCommands_ok h
        refine ⟨hd.1, by rw [hd.2.1]; exact hc1.1, ?_⟩
        rw [hd.2.2, hc1.2, hb]
        exact hlen

theorem terminate_on_closed (env : Env) (s : State) (hc : s.commands_file = .closed)
    (hl : 9 < s.outgoing.length) :
    hypothesisTerminateConnection env s =
      .fail .closedStream
        { s with outgoing := [84, 69, 82, 77, 73, 78, 65, 84, 69] ++ (0 : Byte) :: s.outgoing.drop 10 } := by
  have hcs : cstr ([84, 69, 82, 77, 73, 78, 65, 84, 69] : List Byte)
      = [84, 69, 82, 77, 73, 78, 65, 84, 69] := by decide
  have hz : ∀ b ∈ ([84, 69, 82, 77, 73, 78, 65, 84, 69] : List Byte), b ≠ 0 := by
    rw [← hcs]
    exact cstr_ne_zero _
  rcases s with ⟨rf, cf, out, pend, pipe, inc, tr⟩
  simp only at hc hl
  subst hc
  have hs : strlen (84 :: 69 :: 82 :: 77 :: 73 :: 78 :: 65 :: 84 :: 69 :: (0 : Byte) :: out.drop 10)
      = 9 := strlen_append_nul hz (out.drop 10)
  unfold hypothesisTerminateConnection writeCommand
  rw [hcs, store_eq_some (by simpa using hl)]
  simp [writeOutgoing, fputc, Outcome.bind, hs]

theorem terminate_oneAck :
    hypothesisTerminateConnection (platform 64) oneAck = .ok () afterTerminate := by
  have h := terminate_four (platform 64) oneAck 0 0 0 0 [] (Or.inr ⟨rfl, rfl⟩) (Or.inr ⟨rfl, rfl⟩)
    (initState_outgoing_length _) rfl
  have hz : decode 0 0 0 0 = 0 := by decide
  rw [if_pos hz] at h
  unfold afterTerminate
  rw [h]
  rfl

/-- Claim C7 as stated fails: at program start with an acknowledging peer the
first `hypothesisTerminateConnection()` returns, and the second one, run in the
state the first left, makes a `stdio` call on the command stream that was
already closed; nothing guards it. -/
theorem second_terminate_not_guarded :
    (hypothesisTerminateConnection (platform 64) oneAck).returns = true ∧
    afterTerminate.commands_file = .closed ∧
    (hypothesisTerminateConnection (platform 64) afterTerminate).fault? = some .closedStream := by
  have hclosed := terminate_ok_closed terminate_oneAck
  refine ⟨?_, hclosed.1, ?_⟩
  · rw [terminate_oneAck]
    rfl
  · rw [terminate_on_closed (platform 64) afterTerminate hclosed.1 hclosed.2.2]
    rfl

/-- Claim C7, amended: after a first `hypothesisTerminateConnection()` that
returned, both `FILE *` globals are stale pointers to closed streams; a second
call reopens neither (they are not `NULL`), and it is not guarded: its first
`stdio` call, the `fputc` of the length byte, is made on the closed command
stream and the run stops there, before any byte is written, any read or any
`fclose`. -/
theorem second_terminate_meets_closed_stream (env : Env) (s s1 : State)
    (h : hypothesisTerminateConnection env s = .ok () s1) :
    s1.commands_file = .closed ∧ s1.results_file = .closed ∧
    (hypothesisTerminateConnection env s1).fault? = some .closedStream ∧
    (hypothesisTerminateConnection env s1).state.commands_file = .closed ∧
    (hypothesisTerminateConnection env s1).state.results_file = .closed ∧
    (hypothesisTerminateConnection env s1).state.pipe = s1.pipe ∧
    (hypothesisTerminateConnection env s1).state.pending = s1.pending ∧
    (hypothesisTerminateConnection env s1).state.incoming = s1.incoming ∧
    (hypothesisTerminateConnection env s1).state.trace = s1.trace := by
  have hclosed := terminate_ok_closed h
  rw [terminate_on_closed env s1 hclosed.1 hclosed.2.2]
  exact ⟨hclosed.1, hclosed.2.1, rfl, hclosed.1, hclosed.2.1, rfl, rfl, rfl, rfl⟩

/-- Claim C7, amended, at program start with an acknowledging peer: the first
call returns and the second stops on the closed command stream. -/
theorem second_terminate_meets_closed_stream_witness :
    hypothesisTerminateConnection (platform 64) oneAck = .ok () afterTerminate ∧
    afterTerminate.commands_file = .closed ∧ afterTerminate.results_file = .closed ∧
    (hypothesisTerminateConnection (platform 64) afterTerminate).fault? = some .closedStream ∧
    (hypothesisTerminateConnection (platform 64) afterTerminate).state.trace
      = afterTerminate.trace := by
  have h := second_terminate_meets_closed_stream (platform 64) oneAck afterTerminate
    terminate_oneAck
  exact ⟨terminate_oneAck, h.1, h.2.1, h.2.2.1, h.2.2.2.2.2.2.2.2⟩

/-! ## Opening the pipes -/

theorem strlen_initState (incoming : List (Option Byte)) :
    strlen (initState incoming).outgoing = 0 := by
  have h : (initState incoming).outgoing = (0 : Byte) :: List.replicate 199 0 := rfl
  rw [h]
  simp [strlen]

/-- Claim C9, where opening fails (variable unset, or path that cannot be
opened): `readResult` stops on `assert(results_file != NULL)` before it reads,
but `writeOutgoing` has no such check: it goes on to `fputc` with the null
stream, which is undefined behaviour and not the failed assertion. -/
theorem open_failure_is_checked_only_when_reading (incoming : List (Option Byte)) :
    (writeOutgoing unsetEnv (initState incoming)).fault? = some .nullStream ∧
    (writeOutgoing unopenableEnv (initState incoming)).fault? = some .nullStream ∧
    (readResult unsetEnv (initState incoming)).fault? = some .assertion ∧
    (readResult unopenableEnv (initState incoming)).fault? = some .assertion ∧
    (readResult unsetEnv (initState incoming)).state.incoming = incoming ∧
    (readResult unopenableEnv (initState incoming)).state.incoming = incoming ∧
    (writeOutgoing unsetEnv (initState incoming)).state.pipe = [] ∧
    (writeOutgoing unopenableEnv (initState incoming)).state.pipe = [] := by
  have hs := strlen_initState incoming
  have h1 : fopen unsetEnv unsetEnv.fifo_commands = false := rfl
  have h2 : fopen unopenableEnv unopenableEnv.fifo_commands = false := rfl
  have h3 : fopen unsetEnv unsetEnv.fifo_results = false := rfl
  have h4 : fopen unopenableEnv unopenableEnv.fifo_results = false := rfl
  have hc : (initState incoming).commands_file = .null := rfl
  have hr : (initState incoming).results_file = .null := rfl
  refine ⟨?_, ?_, ?_, ?_, ?_, ?_, ?_, ?_⟩
  · simp [writeOutgoing, hc, h1, hs, fputc, Outcome.bind, Outcome.fault?]
  · simp [writeOutgoing, hc, h2, hs, fputc, Outcome.bind, Outcome.fault?]
  · simp [readResult, hr, h3, Outcome.fault?]
  · simp [readResult, hr, h4, Outcome.fault?]
  · simp [readResult, hr, h3, Outcome.state, initState]
  · simp [readResult, hr, h4, Outcome.state, initState]
  · have hw : writeOutgoing unsetEnv (initState incoming) = .fail .nullStream
        { initState incoming with trace := [.fopenCommands false] } := by
      simp [writeOutgoing, hc, h1, hs, fputc, Outcome.bind]
      rfl
    rw [hw]
    rfl
  · have hw : writeOutgoing unopenableEnv (initState incoming) = .fail .nullStream
        { initState incoming with trace := [.fopenCommands false] } := by
      simp [writeOutgoing, hc, h2, hs, fputc, Outcome.bind]
      rfl
    rw [hw]
    rfl

/-! ## A whole session -/

/-- Claim C6: at program start, with both pipes openable and a peer that
answers `0`, `7`, `0`, `0`, the calls `hypothesisStartExample("ex1")`,
`hypothesisGetRand()`, `hypothesisEndExample()`,
`hypothesisTerminateConnection()` all return, `hypothesisGetRand` returns `7`,
the command pipe holds the frames of `START ex1`, `RAND`, `END`, `TERMINATE`
in that order and nothing else, the sixteen answer bytes are read in order
after the frame they answer, and the two streams are closed after the last
byte was read. -/
theorem session_end_to_end :
    (session (platform 64) (initState sessionAnswers)).value? = some 7 ∧
    (session (platform 32) (initState sessionAnswers)).value? = some 7 ∧
    (session (platform 32) (initState sessionAnswers)).state
      = (session (platform 64) (initState sessionAnswers)).state ∧
    (session (platform 64) (initState sessionAnswers)).state.pipe =
      frame [83, 84, 65, 82, 84, 32, 101, 120, 49] ++ frame [82, 65, 78, 68]
        ++ frame [69, 78, 68] ++ frame [84, 69, 82, 77, 73, 78, 65, 84, 69] ∧
    (session (platform 64) (initState sessionAnswers)).state.pipe =
      [9, 83, 84, 65, 82, 84, 32, 101, 120, 49, 4, 82, 65, 78, 68, 3, 69, 78, 68,
       9, 84, 69, 82, 77, 73, 78, 65, 84, 69] ∧
    (session (platform 64) (initState sessionAnswers)).state.pending = [] ∧
    (session (platform 64) (initState sessionAnswers)).state.incoming = [] ∧
    (session (platform 64) (initState sessionAnswers)).state.results_file = .closed ∧
    (session (platform 64) (initState sessionAnswers)).state.commands_file = .closed ∧
    (session (platform 64) (initState sessionAnswers)).state.trace =
      [.fopenCommands true,
       .fputc 9, .fwrite [83, 84, 65, 82, 84, 32, 101, 120, 49], .fflush,
       .fopenResults true,
       .fgetc (some 0), .fgetc (some 0), .fgetc (some 0), .fgetc (some 0),
       .fputc 4, .fwrite [82, 65, 78, 68], .fflush,
       .fgetc (some 0), .fgetc (some 0), .fgetc (some 0), .fgetc (some 7),
       .fputc 3, .fwrite [69, 78, 68], .fflush,
       .fgetc (some 0), .fgetc (some 0), .fgetc (some 0), .fgetc (some 0),
       .fputc 9, .fwrite [84, 69, 82, 77, 73, 78, 65, 84, 69], .fflush,
       .fgetc (some 0), .fgetc (some 0), .fgetc (some 0), .fgetc (some 0),
       .fcloseResults, .fcloseCommands] := by
  set_option maxRecDepth 100000 in
  decide

/-! ## The end of the stream -/

theorem readLoop_end_of_stream (s : State) :
    ∀ (bs : List Byte) (i result : Nat) (tr : List Call) (rest : List (Option Byte)),
      i + bs.length < 4 →
      (readLoop s (bs.map some ++ none :: rest) i result tr).fault? = some .spin ∧
      (readLoop s (bs.map some ++ none :: rest) i result tr).state.incoming = rest := by
  intro bs
  induction bs with
  | nil =>
    intro i result tr rest h
    rw [List.map_nil, List.nil_append, readLoop_none s rest i result tr (by simpa using h)]
    exact ⟨rfl, rfl⟩
  | cons b bs ih =>
    intro i result tr rest h
    have hlen : i + 1 + bs.length < 4 := by
      simp only [List.length_cons] at h
      omega
    rw [List.map_cons, List.cons_append, readLoop_some s b _ i result tr (by omega)]
    exact ih (i + 1) _ _ rest hlen

theorem readResult_end_of_stream (env : Env) (s : State) (bs : List Byte)
    (rest : List (Option Byte)) (hr : resultsReady env s) (hlen : bs.length < 4)
    (hin : s.incoming = bs.map some ++ none :: rest) :
    (readResult env s).fault? = some .spin ∧ (readResult env s).state.incoming = rest := by
  rcases s with ⟨rf, cf, out, pend, pipe, inc, tr⟩
  simp only at hin
  subst hin
  rcases hr with h | ⟨h, ho⟩
  · simp only at h
    subst h
    simp only [readResult]
    exact readLoop_end_of_stream _ bs 0 0 _ rest (by omega)
  · simp only at h ho
    subst h
    simp only [readResult, ho, if_true]
    exact readLoop_end_of_stream _ bs 0 0 _ rest (by omega)

/-- Claim C10, on a result pipe that holds `01 02`, an end of stream and then
`03 04`: there are four data bytes, and without the end of stream
`readResult` returns `0x01020304`, but with it `readResult` does not return.
After the `EOF` of the third `fgetc` the loop retries for ever, since the
indicator of the stream is never cleared, and the bytes `03 04` stay unread. -/
theorem readResult_spins_after_end_of_stream :
    (dataBytes interrupted).length = 4 ∧
    (readResult (platform 64) (initState interrupted)).returns = false ∧
    (readResult (platform 64) (initState interrupted)).fault? = some .spin ∧
    (readResult (platform 64) (initState interrupted)).state.incoming = [some 3, some 4] ∧
    (readResult (platform 64)
      (initState ((dataBytes interrupted).map some))).value? = some 16909060 := by
  have h := readResult_end_of_stream (platform 64) (initState interrupted) [1, 2]
    [some 3, some 4] (Or.inr ⟨rfl, rfl⟩) (by decide) rfl
  have h4 := readResult_four (platform 64) (initState ((dataBytes interrupted).map some))
    1 2 3 4 [] (Or.inr ⟨rfl, rfl⟩) rfl
  refine ⟨by decide, ?_, h.1, h.2, ?_⟩
  · cases hres : readResult (platform 64) (initState interrupted) with
    | ok v s1 =>
      rw [hres] at h
      cases h.1
    | fail f s1 => rfl
  · rw [h4]
    simp only [Outcome.value?, toInt32_decode]
    decide

/-! ## What holds inside the limits -/

theorem ulong_of_int32_32 (b0 b1 b2 b3 : Byte) :
    (toInt32 (decode b0 b1 b2 b3) % 2 ^ 32).toNat = decode b0 b1 b2 b3 := by
  have hlt := decode_lt b0 b1 b2 b3
  rw [toInt32_decode]
  split <;> omega

theorem ulong_of_int32_small (w : Nat) (b0 b1 b2 b3 : Byte) (hw : 32 ≤ w) (h0 : b0.val < 128) :
    (toInt32 (decode b0 b1 b2 b3) % 2 ^ w).toNat = decode b0 b1 b2 b3 := by
  have hlt := decode_lt b0 b1 b2 b3
  rw [toInt32_decode, if_pos h0]
  have hpow : (2 : Int) ^ 32 ≤ 2 ^ w := pow_le_pow_right₀ (by norm_num) hw
  have hd : ((decode b0 b1 b2 b3 : Nat) : Int) < 2 ^ w := by
    have : ((decode b0 b1 b2 b3 : Nat) : Int) < 2 ^ 32 := by exact_mod_cast hlt
    omega
  rw [Int.emod_eq_of_lt (by omega) hd]
  simp

theorem readLoop_pipe (s : State) :
    ∀ (evs : List (Option Byte)) (i result : Nat) (tr : List Call),
      (readLoop s evs i result tr).state.pipe = s.pipe ∧
      (readLoop s evs i result tr).state.pending = s.pending := by
  intro evs
  induction evs with
  | nil =>
    intro i result tr
    by_cases h : i < 4 <;> simp [readLoop, h, Outcome.state]
  | cons ev evs ih =>
    intro i result tr
    by_cases h : i < 4
    · cases ev with
      | none => rw [readLoop_none s evs i result tr h]; exact ⟨rfl, rfl⟩
      | some b => rw [readLoop_some s b evs i result tr h]; exact ih _ _ _
    · rw [readLoop_done s _ i result tr h]
      exact ⟨rfl, rfl⟩

theorem readResult_pipe (env : Env) (s : State) :
    (readResult env s).state.pipe = s.pipe ∧ (readResult env s).state.pending = s.pending := by
  rcases s with ⟨rf, cf, out, pend, pipe, inc, tr⟩
  cases rf
  · cases hf : fopen env env.fifo_results
    · simp [readResult, hf, Outcome.state]
    · simp only [readResult, hf, if_true]
      exact readLoop_pipe _ _ _ _ _
  · simp only [readResult]
    exact readLoop_pipe _ _ _ _ _
  · simp [readResult, Outcome.state]

theorem getAck_pipe (env : Env) (s : State) :
    (getAck env s).state.pipe = s.pipe ∧ (getAck env s).state.pending = s.pending := by
  unfold getAck
  have h := readResult_pipe env s
  cases hr : readResult env s with
  | fail f s1 =>
    rw [hr] at h
    exact h
  | ok v s1 =>
    rw [hr] at h
    simp only [Outcome.bind]
    split <;> exact h

theorem startExample_frame (env : Env) (label : List Byte) (s : State)
    (hc : commandsReady env s) (hb : s.outgoing.length = BUF_SIZE)
    (hz : ∀ b ∈ label, b ≠ 0) (hl : label.length ≤ 193) :
    (hypothesisStartExample env label s).state.pipe =
      s.pipe ++ (s.pending ++ (toUChar (6 + label.length) :: ([83, 84, 65, 82, 84, 32] ++ label))) ∧
    (toUChar (6 + label.length)).val = 6 + label.length ∧
    (hypothesisStartExample env label s).state.pending = [] := by
  have hcs := cstr_of_nul_free hz
  rw [startExample_sent env label s hc hb (by rw [hcs]; unfold BUF_SIZE; omega), hcs]
  have h := getAck_pipe env (sent s ([83, 84, 65, 82, 84, 32] ++ label))
  rw [h.1, h.2]
  refine ⟨?_, ?_, rfl⟩
  · simp only [sent, frame, List.length_append, List.length_cons, List.length_nil]
  · simp only [toUChar]
    omega

theorem getRand_value (env : Env) (s : State) (b0 b1 b2 b3 : Byte) (rest : List (Option Byte))
    (hc : commandsReady env s) (hr : resultsReady env s) (hb : s.outgoing.length = BUF_SIZE)
    (hin : s.incoming = some b0 :: some b1 :: some b2 :: some b3 :: rest)
    (hw : env.ulongBits = 32 ∨ (32 ≤ env.ulongBits ∧ b0.val < 128)) :
    (hypothesisGetRand env s).value? = some (decode b0 b1 b2 b3) ∧
    (hypothesisGetRand env s).state.pipe = s.pipe ++ (s.pending ++ [4, 82, 65, 78, 68]) ∧
    (hypothesisGetRand env s).state.incoming = rest := by
  rw [getRand_four env s b0 b1 b2 b3 rest hc hr hb hin]
  refine ⟨?_, rfl, rfl⟩
  simp only [Outcome.value?]
  rcases hw with h | ⟨h, h0⟩
  · rw [h, ulong_of_int32_32]
  · rw [ulong_of_int32_small _ b0 b1 b2 b3 h h0]

end HypothesisInterface
